import Mathlib

/-!
Shallow embedding of the core of the Caleb University resource-bank repository:
the client-side path cache (`src/js/cache.js`), the cache-aware API client
(`DriveAPI` in the lazy-loading module, `src/unnamed/part_005`), and the
serverless browse gateway (`src/api/browse.js`).

Conventions of the embedding:
* JavaScript strings are modelled as `List Char` (`Name` below).
* Timestamps are `Nat` milliseconds; JS subtraction `Date.now() - timestamp`
  is modelled in `Int` so that a timestamp in the future yields a negative age,
  exactly as in JS.
* `localStorage` is modelled as an association list from keys to stored cells;
  a cell is either a parseable cache entry or a corrupt string on which
  `JSON.parse` throws.  The cache-metadata key `curb_cache_meta` does not carry
  the `curb_path_` key prefix, so it can never collide with a path key nor be
  seen by the prefix-filtered scans; it is modelled as a separate state field.
* Fallible storage writes (`localStorage.setItem`) take an explicit outcome
  parameter (success / QuotaExceededError / other error), mirroring the fact
  that the JS code branches on `error.name === 'QuotaExceededError'`.
* Network calls take their outcome as an explicit `Except` parameter.
-/

/-- JavaScript strings, modelled as lists of characters. -/
abbrev Name := List Char

/-- ASCII whitespace, modelling the JS `\s` character class (and `trim`)
on the character range that occurs in this repository's folder names. -/
def isWS (c : Char) : Bool :=
  c == ' ' || c == '\t' || c == '\n' || c == '\r'

/-- `String.prototype.trim`: drop leading and trailing whitespace. -/
def trimWS (l : Name) : Name :=
  (((l.dropWhile isWS).reverse).dropWhile isWS).reverse

/-- Collapse maximal whitespace runs to single spaces
(JS `.replace(/\s+/g, ' ')`).  The boolean tracks whether the previous
character was whitespace. -/
def collapseWS : Bool → Name → Name
  | _, [] => []
  | prevWS, c :: rest =>
    if isWS c then
      if prevWS then collapseWS true rest
      else ' ' :: collapseWS true rest
    else c :: collapseWS false rest

/-- `normalizeFolderName` from `src/api/browse.js`:
`if (!name || typeof name !== 'string') return name;
 return name.trim().replace(/\s+/g, ' ');`
The falsy guard on the empty string returns it unchanged (which coincides
with trimming it). -/
def normalizeFolderName (n : Name) : Name :=
  if n = [] then n else collapseWS false (trimWS n)

/-- `.replace(/~/g, '/')` applied to a caller-supplied path segment
(in `findFolderByName`). -/
def tildeToSlash (n : Name) : Name :=
  n.map (fun c => if c = '~' then '/' else c)

section CacheJs

/-! ## `src/js/cache.js` — PathCacheManager -/

/-- Constructor constants of `PathCacheManager`. -/
def defaultTTL : Nat := 6 * 60 * 60 * 1000
def departmentTTL : Nat := 24 * 60 * 60 * 1000
def defaultHardExpiry : Nat := 24 * 60 * 60 * 1000
def departmentHardExpiry : Nat := 7 * 24 * 60 * 60 * 1000

/-- The root-path test `path === '/' || path === ''` used by
`isStale` / `isExpired`. -/
def isRootPath (p : Name) : Bool :=
  p == "/".toList || p == ([] : Name)

/-- `PathCacheManager.isStale(timestamp, path)`:
`age = Date.now() - timestamp; ttl = root ? departmentTTL : defaultTTL;
 return age > ttl;`.  `now` is the value of `Date.now()`. -/
def isStale (now ts : Nat) (p : Name) : Bool :=
  let age : Int := (now : Int) - (ts : Int)
  let ttl : Nat := if isRootPath p then departmentTTL else defaultTTL
  age > (ttl : Int)

/-- `PathCacheManager.isExpired(timestamp, path)`:
`age = Date.now() - timestamp; hard = root ? departmentHardExpiry :
 defaultHardExpiry; return age > hard;`. -/
def isExpired (now ts : Nat) (p : Name) : Bool :=
  let age : Int := (now : Int) - (ts : Int)
  let hard : Nat := if isRootPath p then departmentHardExpiry else defaultHardExpiry
  age > (hard : Int)

end CacheJs

section Storage

/-! ## `localStorage` model and the rest of `PathCacheManager` -/

variable {α : Type}

/-- The JSON value stored at one `localStorage` key: either a parseable cache
entry (the object written by `set`) or a corrupt string on which `JSON.parse`
throws. -/
structure CEntry (α : Type) where
  data : α
  timestamp : Nat
  path : Name
  ctype : Name
deriving DecidableEq

inductive Cell (α : Type)
  | ent : CEntry α → Cell α
  | corrupt : Cell α
deriving DecidableEq

/-- `localStorage` as an association list (the iteration order of
`localStorage.key(i)` is the list order). -/
abbrev Store (α : Type) := List (Name × Cell α)

def storeGet : Store α → Name → Option (Cell α)
  | [], _ => none
  | (k', c') :: rest, k => if k' = k then some c' else storeGet rest k

def storeSet : Store α → Name → Cell α → Store α
  | [], k, c => [(k, c)]
  | (k', c') :: rest, k, c =>
    if k' = k then (k, c) :: rest else (k', c') :: storeSet rest k c

def storeRemove : Store α → Name → Store α
  | [], _ => []
  | (k', c') :: rest, k =>
    if k' = k then storeRemove rest k else (k', c') :: storeRemove rest k

/-- `hasPref pre s` holds when `s` starts with `pre`
(JS `key.startsWith(this.storagePrefix)`). -/
def hasPref : Name → Name → Bool
  | [], _ => true
  | _ :: _, [] => false
  | a :: as, b :: bs => a == b && hasPref as bs

/-- `this.storagePrefix = 'curb_path_'`. -/
def pathKeyPref : Name := "curb_path_".toList

/-- `PathCacheManager.getKey(path, type)`:
`path.replace(/^\/+|\/+$/g, '').replace(/\//g, '__')`, then
`` `${this.storagePrefix}${normalizedPath}_${type}` ``. -/
def stripSlashes (p : Name) : Name :=
  (((p.dropWhile (· == '/')).reverse).dropWhile (· == '/')).reverse

def slashToUnd (p : Name) : Name :=
  (p.map (fun c => if c = '/' then ['_', '_'] else [c])).flatten

def getKey (path ctype : Name) : Name :=
  pathKeyPref ++ slashToUnd (stripSlashes path) ++ '_' :: ctype

/-- Outcome of one `localStorage.setItem` attempt. -/
inductive Outcome
  | success
  | quotaExceeded   -- throws an error with name 'QuotaExceededError'
  | failOther       -- throws any other error
deriving DecidableEq

inductive JSErr
  | quota
  | otherJs
deriving DecidableEq

/-- `localStorage.setItem`, with its outcome made explicit. -/
def localSet (st : Store α) (k : Name) (c : Cell α) (o : Outcome) :
    Except JSErr (Store α) :=
  match o with
  | .success => .ok (storeSet st k c)
  | .quotaExceeded => .error .quota
  | .failOther => .error .otherJs

/-- Client cache state: the `curb_path_`-keyed part of `localStorage` plus the
`curb_cache_meta` key.  The meta key does not carry the `curb_path_` prefix, so
no `getKey` output can collide with it and no prefix-filtered scan sees it;
it is therefore modelled as a separate field. -/
structure CState (α : Type) where
  store : Store α
  meta : Option Nat
deriving DecidableEq

/-- `updateMeta({lastUpdated: Date.now()})`: merges into the meta object;
its own `setItem` failure is caught internally (never throws). -/
def updateMeta (st : CState α) (om : Outcome) (now : Nat) : CState α :=
  match om with
  | .success => { st with meta := some now }
  | _ => st

/-- The collection loop of `clearOldestEntries`: walk every `localStorage` key,
keep the `curb_path_`-prefixed ones, `JSON.parse` each stored string and read
its `timestamp`.  A corrupt entry makes `JSON.parse` throw, aborting the whole
loop before any removal happens (the surrounding `try` catches it). -/
def collectPref : Store α → Except Unit (List (Name × Nat))
  | [] => .ok []
  | (k, c) :: rest =>
    if hasPref pathKeyPref k then
      match c with
      | .ent e =>
        match collectPref rest with
        | .ok l => .ok ((k, e.timestamp) :: l)
        | .error u => .error u
      | .corrupt => .error ()
    else collectPref rest

/-- Insertion step of sorting by timestamp ascending
(JS `entries.sort((a, b) => a.timestamp - b.timestamp)`). -/
def insertByTs (x : Name × Nat) : List (Name × Nat) → List (Name × Nat)
  | [] => [x]
  | y :: ys => if x.2 ≤ y.2 then x :: y :: ys else y :: insertByTs x ys

def sortByTs : List (Name × Nat) → List (Name × Nat)
  | [] => []
  | x :: xs => insertByTs x (sortByTs xs)

/-- `PathCacheManager.clearOldestEntries(count)`: collect all prefixed entries
with their timestamps, sort oldest-first, remove the first `count` keys.
If collection throws (corrupt entry), the catch leaves the store untouched. -/
def clearOldestEntries (st : Store α) (count : Nat) : Store α :=
  match collectPref st with
  | .error _ => st
  | .ok entries =>
    (((sortByTs entries).take count).map Prod.fst).foldl storeRemove st

namespace PathCache

/-- `PathCacheManager.set(path, type, data)`.  `o1` is the outcome of the
first `setItem`, `om` of the `updateMeta` write, `o2` of the retry `setItem`
after quota-triggered eviction.  Both entry objects are built with
`Date.now()`, modelled as the single `now` of the call. -/
def set (st : CState α) (o1 om o2 : Outcome) (path ctype : Name) (d : α)
    (now : Nat) : Bool × CState α :=
  let key := getKey path ctype
  let entry : Cell α := .ent ⟨d, now, path, ctype⟩
  match localSet st.store key entry o1 with
  | .ok s1 => (true, updateMeta ⟨s1, st.meta⟩ om now)
  | .error e =>
    match e with
    | .quota =>
      -- error.name === 'QuotaExceededError': evict 5 oldest, retry once
      let s1 := clearOldestEntries st.store 5
      match localSet s1 key entry o2 with
      | .ok s2 => (true, ⟨s2, st.meta⟩)
      | .error _ => (false, ⟨s1, st.meta⟩)   -- retry also failed: caught, false
    | .otherJs => (false, st)

/-- The object `PathCacheManager.get` returns on a hit:
data, timestamp, staleness flags (computed from the entry's own stored path),
and age. -/
structure GetRes (α : Type) where
  data : α
  timestamp : Nat
  isStale : Bool
  isExpired : Bool
  age : Int
deriving DecidableEq

/-- `PathCacheManager.get(path, type)`.  A missing key returns null; a corrupt
stored string makes `JSON.parse` throw, which the surrounding catch turns into
null. -/
def get (st : CState α) (now : Nat) (path ctype : Name) : Option (GetRes α) :=
  match storeGet st.store (getKey path ctype) with
  | none => none
  | some .corrupt => none
  | some (.ent e) =>
    some ⟨e.data, e.timestamp, isStale now e.timestamp e.path,
          isExpired now e.timestamp e.path, (now : Int) - e.timestamp⟩

/-- `PathCacheManager.remove(path, type)`. -/
def remove (st : CState α) (path ctype : Name) : CState α :=
  { st with store := storeRemove st.store (getKey path ctype) }

/-- `PathCacheManager.invalidatePath(path)`: removes both content types. -/
def invalidatePath (st : CState α) (p : Name) : CState α :=
  remove (remove st p "folders".toList) p "files".toList

end PathCache

end Storage

section Gateway

/-! ## `src/api/browse.js` — the serverless browse gateway

The Google Drive provider is modelled as two total functions giving, for a
folder id, its child folders and its PDF files (the result of `listFolders` /
`listFiles`, already ordered by name by the Drive API).  Upstream provider
failures are not needed by any claim and are not modelled. -/

/-- A provider folder object (`files(id,name,modifiedTime)`). -/
structure GFolder where
  id : Name
  name : Name
  modifiedTime : Name
deriving DecidableEq

/-- A provider file object
(`files(id,name,modifiedTime,size,webViewLink,webContentLink)`). -/
structure GFile where
  id : Name
  name : Name
  modifiedTime : Name
  size : Nat
  webViewLink : Name
  webContentLink : Name
deriving DecidableEq

/-- `findFolderByName(parentId, folderName, apiKey)`: list the parent's child
folders, convert `~` back to `/` in the target, normalize both sides, return
the first match or null. -/
def findFolderByName (prov : Name → List GFolder) (parentId : Name)
    (folderName : Name) : Option GFolder :=
  let normalizedTarget := normalizeFolderName (tildeToSlash folderName)
  (prov parentId).find? (fun f => normalizeFolderName f.name == normalizedTarget)

/-- The path-resolution loop of the handler: starting from the root folder id,
resolve each segment in order; the first unresolvable segment aborts the walk
(`.error segment`). -/
def resolveSegs (prov : Name → List GFolder) : Name → List Name →
    Except Name Name
  | current, [] => .ok current
  | current, s :: rest =>
    match findFolderByName prov current s with
    | none => .error s
    | some f => resolveSegs prov f.id rest

/-- `path.split('/').filter(s => s.length > 0)`. -/
def splitAux (cur : Name) : Name → List Name
  | [] => [cur.reverse]
  | c :: rest =>
    if c = '/' then cur.reverse :: splitAux [] rest else splitAux (c :: cur) rest

def splitSlash (p : Name) : List Name :=
  (splitAux [] p).filter (fun s => s ≠ [])

/-- One allow-list entry of `LEVEL_EXCEPTIONS` / `DEFAULT_LEVELS`: a JS number
or a JS string.  `Array.prototype.includes` uses strict equality, so a number
never matches a string entry and vice versa. -/
inductive LevelSpec
  | num : Nat → LevelSpec
  | txt : Name → LevelSpec
deriving DecidableEq

/-- The `LEVEL_EXCEPTIONS` table of `src/api/browse.js`. -/
def LEVEL_EXCEPTIONS (d : Name) : Option (List LevelSpec) :=
  if d = "Human Anatomy".toList then some [.num 100]
  else if d = "Human Physiology".toList then some [.num 100]
  else if d = "Software Engineering".toList then some [.num 100]
  else if d = "MLS".toList then some [.num 100]
  else if d = "Nursing".toList then some [.num 100, .num 200]
  else if d = "Jupeb".toList then
    some [.txt "Art".toList, .txt "Business".toList, .txt "Science".toList]
  else none

def DEFAULT_LEVELS : List LevelSpec := [.num 100, .num 200, .num 300, .num 400]

/-- `LEVEL_EXCEPTIONS[deptName] || DEFAULT_LEVELS`. -/
def getValidLevels (d : Name) : List LevelSpec :=
  (LEVEL_EXCEPTIONS d).getD DEFAULT_LEVELS

/-- `c.isDigit` for the JS `\d` class. -/
def isDigitB (c : Char) : Bool := c.isDigit

/-- `parseInt` of a run of decimal digits. -/
def numFromDigits (l : Name) : Nat :=
  l.foldl (fun a c => a * 10 + (c.toNat - '0'.toNat)) 0

/-- `name.match(/(\d+)/)` followed by `parseInt`: the first maximal digit run
of the name, as a number. -/
def firstNumber : Name → Option Nat
  | [] => none
  | c :: rest =>
    if isDigitB c then some (numFromDigits (c :: rest.takeWhile isDigitB))
    else firstNumber rest

/-- Every maximal digit run of a name, as numbers (used to state C3's
"has an embedded number" condition). -/
def numbersIn : Name → List Nat
  | [] => []
  | c :: rest =>
    if isDigitB c then
      numFromDigits (c :: rest.takeWhile isDigitB) ::
        numbersIn (rest.dropWhile isDigitB)
    else numbersIn rest
termination_by l => l.length
decreasing_by
  · simp only [List.length_cons]
    exact Nat.lt_succ_of_le (List.dropWhile_sublist _).length_le
  · simp

/-- A folder item of the FOLDERS response:
`{ id, name: normalizeFolderName(f.name), modifiedTime }`. -/
structure FItem where
  id : Name
  name : Name
  modifiedTime : Name
deriving DecidableEq

/-- The filter predicate of the department-level filtering block:
`f.name.match(/(\d+)/)` present → keep iff `validLevels.includes(parseInt(m))`;
absent → keep iff `validLevels.includes(f.name)`. -/
def keepLevel (levels : List LevelSpec) (f : FItem) : Bool :=
  match firstNumber f.name with
  | some n => levels.contains (LevelSpec.num n)
  | none => levels.contains (LevelSpec.txt f.name)

/-- The `if (segments.length === 1)` filtering block: filtering is applied only
when exactly one path segment was resolved, using the allow-list of the
(normalized) department segment. -/
def applyLevelFilter (segments : List Name) (items : List FItem) : List FItem :=
  match segments with
  | [d] => items.filter (keepLevel (getValidLevels (normalizeFolderName d)))
  | _ => items

/-- The listing payload of a 200 response. -/
inductive LData
  | folders : List FItem → LData
  | files : List GFile → LData
deriving DecidableEq

/-- Server-side per-path cache (`pathCache` Map in `browse.js`):
key `` `path:${path}:${type}` `` → `{ data, timestamp }`.  We store the map as
an association list keyed by the argument of `getCacheKey`. -/
abbrev SCache := List (Name × (LData × Nat))

def CACHE_TTL : Nat := 30 * 60 * 1000

def scacheGet : SCache → Name → Option (LData × Nat)
  | [], _ => none
  | (k', v) :: rest, k => if k' = k then some v else scacheGet rest k

def scacheRemove : SCache → Name → SCache
  | [], _ => []
  | (k', v) :: rest, k =>
    if k' = k then scacheRemove rest k else (k', v) :: scacheRemove rest k

def scacheSet (sc : SCache) (k : Name) (d : LData) (now : Nat) : SCache :=
  (scacheRemove sc k) ++ [(k, (d, now))]

/-- `isCacheValid`: `(Date.now() - cached.timestamp) < CACHE_TTL`. -/
def isCacheValid (now ts : Nat) : Bool :=
  ((now : Int) - ts) < (CACHE_TTL : Int)

/-- `getCached(path)`: return a valid entry, otherwise delete the key and
return null. -/
def getCached (sc : SCache) (k : Name) (now : Nat) :
    Option (LData × Nat) × SCache :=
  match scacheGet sc k with
  | some (d, ts) =>
    if isCacheValid now ts then (some (d, ts), sc)
    else (none, scacheRemove sc k)
  | none => (none, scacheRemove sc k)

/-- An HTTP request as the handler sees it. -/
structure Req where
  method : Name
  qpath : Option Name
  qtype : Option Name
deriving DecidableEq

/-- Response bodies produced by the handler. -/
inductive RespBody
  | empty
  | listing (path ctype : Name) (data : LData) (cached : Bool) (timestamp : Nat)
  | err (error : Name) (message : Option Name) (path : Option Name)
deriving DecidableEq

structure Resp where
  status : Nat
  body : RespBody
deriving DecidableEq

/-- The `data` field of a 200 listing response, if any. -/
def respData (r : Resp) : Option LData :=
  match r.body with
  | .listing _ _ d _ _ => some d
  | _ => none

/-- `req.query.path || '/'` (both `undefined` and `''` are falsy). -/
def effPath : Option Name → Name
  | none => "/".toList
  | some p => if p = [] then "/".toList else p

/-- `req.query.type || 'folders'`. -/
def effType : Option Name → Name
  | none => "folders".toList
  | some t => if t = [] then "folders".toList else t

/-- `` `Folder "${segment}" not found in path` ``. -/
def notFoundMsg (seg : Name) : Name :=
  "Folder \"".toList ++ seg ++ "\" not found in path".toList

/-- The handler body after method and configuration checks: cache lookup,
path resolution, listing, filtering, cache write. -/
def handlerCore (provF : Name → List GFolder) (provFiles : Name → List GFile)
    (rootId : Name) (sc : SCache) (path ctype : Name) (now : Nat) :
    Resp × SCache :=
  let cacheKey := path ++ ':' :: ctype
  match getCached sc cacheKey now with
  | (some (d, ts), sc') =>
    (⟨200, .listing path ctype d true ts⟩, sc')
  | (none, sc') =>
    let segments := splitSlash path
    match resolveSegs provF rootId segments with
    | .error seg =>
      (⟨404, .err "Path not found".toList (some (notFoundMsg seg)) (some path)⟩,
       sc')
    | .ok folderId =>
      let data :=
        if ctype = "files".toList then LData.files (provFiles folderId)
        else
          LData.folders (applyLevelFilter segments
            ((provF folderId).map (fun f =>
              ⟨f.id, normalizeFolderName f.name, f.modifiedTime⟩)))
      (⟨200, .listing path ctype data false now⟩, scacheSet sc' cacheKey data now)

/-- `module.exports` of `src/api/browse.js`: CORS preflight, method check,
environment check, then `handlerCore`.  `env` is
`(GOOGLE_DRIVE_API_KEY, GOOGLE_DRIVE_ROOT_FOLDER_ID)` when both are set. -/
def handler (env : Option (Name × Name)) (provF : Name → List GFolder)
    (provFiles : Name → List GFile) (sc : SCache) (req : Req) (now : Nat) :
    Resp × SCache :=
  if req.method = "OPTIONS".toList then (⟨200, .empty⟩, sc)
  else if req.method ≠ "GET".toList then
    (⟨405, .err "Method not allowed".toList none none⟩, sc)
  else
    match env with
    | none =>
      (⟨500, .err "Server configuration error".toList
          (some "API credentials not configured.".toList) none⟩, sc)
    | some (_, rootId) =>
      handlerCore provF provFiles rootId sc (effPath req.qpath)
        (effType req.qtype) now

end Gateway

section Client

/-! ## `DriveAPI` (lazy-loading module, `src/unnamed/part_005`)

The client state is the path cache plus the `loading` map of in-flight request
keys.  Network outcomes of the (at most one) blocking `doFetch` and the
(at most one) background `doFetch` are explicit parameters; so are the storage
write outcomes of the `pathCache.set` each performs.  A stale-branch
background refresh completes at time `bgNow`. -/

variable {α : Type}

inductive NetErr
  | netFail
  | serverErr (status : Nat)
deriving DecidableEq

/-- Client state: the path cache (`pathCache`) and the `this.loading` map,
modelled by its key set. -/
structure DState (α : Type) where
  cache : CState α
  loading : List Name
deriving DecidableEq

/-- `` `${path}:${type}` `` — the in-flight request key of `fetchPath`. -/
def loadKey (p t : Name) : Name := p ++ ':' :: t

/-- `DriveAPI.doFetch(path, type)`: perform the gateway request; on a
non-OK response throw; on success `pathCache.set(path, type, result.data)`
(its boolean result is ignored) and return the data. -/
def doFetch (st : DState α) (net : Except NetErr α) (o1 om o2 : Outcome)
    (p t : Name) (now : Nat) : Except NetErr (α × DState α) :=
  match net with
  | .error e => .error e
  | .ok d =>
    let r := PathCache.set st.cache o1 om o2 p t d now
    .ok (d, ⟨r.2, st.loading⟩)

/-- `DriveAPI.backgroundRefresh(path, type)`: run `doFetch` without awaiting;
`.catch` swallows any failure. -/
def backgroundRefresh (st : DState α) (bgNet : Except NetErr α)
    (o1 om o2 : Outcome) (p t : Name) (now : Nat) : DState α :=
  match doFetch st bgNet o1 om o2 p t now with
  | .ok (_, st') => st'
  | .error _ => st

/-- The observable outcome of one `fetchPath` call: a returned payload, the
shared promise of an already-in-flight request, or a thrown error. -/
inductive FetchOut (α : Type)
  | value : α → FetchOut α
  | pending : FetchOut α
  | fail : NetErr → FetchOut α
deriving DecidableEq

/-- The blocking part of `fetchPath` (after the cache check): in-flight
de-duplication, then `doFetch` with the loading key held for the duration
(so `loading` is unchanged once the call completes). -/
def fetchBlocking (st : DState α) (net : Except NetErr α) (o1 om o2 : Outcome)
    (p t : Name) (now : Nat) : FetchOut α × DState α :=
  if loadKey p t ∈ st.loading then (.pending, st)
  else
    match doFetch st net o1 om o2 p t now with
    | .ok (d, st') => (.value d, st')
    | .error e => (.fail e, st)

/-- `DriveAPI.fetchPath(path, type, forceRefresh)`.  Without force refresh:
a non-expired cache hit is returned directly, additionally firing a
background refresh when stale; otherwise (miss or expired) the blocking
path runs.  With force refresh the cache read is skipped entirely. -/
def fetchPath (st : DState α) (force : Bool) (net bgNet : Except NetErr α)
    (o1 om o2 bo1 bom bo2 : Outcome) (p t : Name) (now bgNow : Nat) :
    FetchOut α × DState α :=
  if force then fetchBlocking st net o1 om o2 p t now
  else
    match PathCache.get st.cache now p t with
    | some c =>
      if c.isExpired then fetchBlocking st net o1 om o2 p t now
      else if c.isStale then
        (.value c.data, backgroundRefresh st bgNet bo1 bom bo2 p t bgNow)
      else (.value c.data, st)
    | none => fetchBlocking st net o1 om o2 p t now

end Client

/-! # Theorems -/

/-! ### Claim C2 -/

/-- The spec's freshness tiers, stated from the spec's words:
age strictly exceeds 6 hours (21600000 ms) for non-root paths and
24 hours (86400000 ms) for the root path `'/'` or `''`. -/
def specStale (now ts : Nat) (p : Name) : Prop :=
  if p = "/".toList ∨ p = [] then (now : Int) - ts > 86400000
  else (now : Int) - ts > 21600000

/-- 24 hours for non-root, 7 days (604800000 ms) for root. -/
def specExpired (now ts : Nat) (p : Name) : Prop :=
  if p = "/".toList ∨ p = [] then (now : Int) - ts > 604800000
  else (now : Int) - ts > 86400000

/-- **C2**: `isStale(fetchedAt, path)` holds exactly when the entry's age
exceeds 6 hours for a non-root path and 24 hours for the root path
(`'/'` or `''`); `isExpired(fetchedAt, path)` holds exactly when the age
exceeds 24 hours for a non-root path and 7 days for the root path. -/
theorem c2_freshness_tiers (now ts : Nat) (p : Name) :
    (isStale now ts p = true ↔ specStale now ts p) ∧
    (isExpired now ts p = true ↔ specExpired now ts p) := by
  have hroot : (isRootPath p = true) ↔ (p = "/".toList ∨ p = []) := by
    unfold isRootPath
    simp
  by_cases hb : isRootPath p = true
  · have hp := hroot.mp hb
    unfold isStale specStale isExpired specExpired departmentTTL departmentHardExpiry
    simp [hb, hp]
    rw [if_pos (by simpa using hp), if_pos (by simpa using hp)]
    exact ⟨Iff.rfl, Iff.rfl⟩
  · have hp : ¬(p = "/".toList ∨ p = []) := fun h => hb (hroot.mpr h)
    rw [Bool.not_eq_true] at hb
    unfold isStale specStale isExpired specExpired defaultTTL defaultHardExpiry
    simp [hb, hp]
    rw [if_neg (by simpa using hp), if_neg (by simpa using hp)]
    exact ⟨Iff.rfl, Iff.rfl⟩

/-! ### Claim C9 -/

/-- **C9, counterexample**: the claim "405 to every non-GET request" is false:
an OPTIONS request (CORS preflight) is answered with status 200. -/
theorem c9_counterexample :
    (handler none (fun _ => []) (fun _ => []) []
        ⟨"OPTIONS".toList, none, none⟩ 0).1.status = 200 ∧ (200 : Nat) ≠ 405 := by
  constructor
  · rfl
  · decide

/-- **C9, amended**: every request whose method is neither GET nor OPTIONS is
answered with status 405 (`{error: 'Method not allowed'}`); OPTIONS preflight
requests get 200. -/
theorem c9_non_get_non_options_is_405 (env : Option (Name × Name))
    (pf : Name → List GFolder) (pff : Name → List GFile) (sc : SCache)
    (req : Req) (now : Nat)
    (h1 : req.method ≠ "GET".toList) (h2 : req.method ≠ "OPTIONS".toList) :
    (handler env pf pff sc req now).1 =
      ⟨405, .err "Method not allowed".toList none none⟩ := by
  unfold handler
  rw [if_neg h2, if_pos h1]

/-- Witness for C9's amended theorem at the concrete method POST. -/
theorem c9_witness :
    (handler none (fun _ => []) (fun _ => []) []
        ⟨"POST".toList, none, none⟩ 0).1 =
      ⟨405, .err "Method not allowed".toList none none⟩ :=
  c9_non_get_non_options_is_405 none (fun _ => []) (fun _ => []) []
    ⟨"POST".toList, none, none⟩ 0 (by decide) (by decide)

/-! ### Claim C10 -/

/-- **C10**: at the gateway's public interface, query parameters are defaulted,
not validated.  (i) a GET request without a `path` parameter behaves exactly
like one with `path=/`; (ii) with an empty server cache, any `type` value
other than the exact string `files` yields the same status and the same
listing data as `type=folders`, and on successful resolution that data is a
subfolder listing; (iii) a GET request without a `type` parameter behaves
exactly like one with `type=folders`. -/
theorem c10_query_defaults (env : Option (Name × Name))
    (pf : Name → List GFolder) (pff : Name → List GFile) (now : Nat) :
    (∀ sc qt, handler env pf pff sc ⟨"GET".toList, none, qt⟩ now =
      handler env pf pff sc ⟨"GET".toList, some "/".toList, qt⟩ now) ∧
    (∀ qp t, t ≠ "files".toList →
      (handler env pf pff [] ⟨"GET".toList, qp, some t⟩ now).1.status =
        (handler env pf pff [] ⟨"GET".toList, qp, some "folders".toList⟩ now).1.status ∧
      respData (handler env pf pff [] ⟨"GET".toList, qp, some t⟩ now).1 =
        respData (handler env pf pff [] ⟨"GET".toList, qp, some "folders".toList⟩ now).1 ∧
      (∀ k rootId fid, env = some (k, rootId) →
        resolveSegs pf rootId (splitSlash (effPath qp)) = .ok fid →
        ∃ l, respData (handler env pf pff [] ⟨"GET".toList, qp, some t⟩ now).1 =
          some (.folders l))) ∧
    (∀ sc qp, handler env pf pff sc ⟨"GET".toList, qp, none⟩ now =
      handler env pf pff sc ⟨"GET".toList, qp, some "folders".toList⟩ now) := by
  refine ⟨?_, ?_, ?_⟩
  · intro sc qt
    unfold handler
    rw [show effPath none = effPath (some "/".toList) from by decide]
  · intro qp t ht
    have htype : effType (some t) ≠ "files".toList := by
      by_cases h0 : t = []
      · subst h0; decide
      · simpa [effType, h0] using ht
    have hfolders : effType (some "folders".toList) = "folders".toList := by decide
    have hmiss : ∀ ck : Name, getCached ([] : SCache) ck now = (none, []) :=
      fun _ => rfl
    cases env with
    | none =>
      refine ⟨rfl, rfl, ?_⟩
      intro k rootId fid h
      exact absurd h (by simp)
    | some kv =>
      obtain ⟨key, rootId⟩ := kv
      simp only [handler, if_neg (by decide : ¬("GET".toList = "OPTIONS".toList)),
        if_neg (by decide : ¬("GET".toList ≠ "GET".toList)), hfolders]
      simp only [handlerCore, hmiss]
      cases hres : resolveSegs pf rootId (splitSlash (effPath qp)) with
      | error seg =>
        simp only [hres]
        refine ⟨trivial, trivial, ?_⟩
        intro k' rootId' fid' henv hok
        cases henv
        rw [hres] at hok
        exact absurd hok (by simp)
      | ok fid =>
        simp only [hres, if_neg htype,
          if_neg (by decide : ¬("folders".toList = "files".toList))]
        refine ⟨trivial, rfl, ?_⟩
        intro k' rootId' fid' henv hok
        cases henv
        exact ⟨_, rfl⟩
  · intro sc qp
    unfold handler
    rw [show effType none = effType (some "folders".toList) from by decide]

/-- Witness for C10 at concrete inputs: the `type` clause applied to the
unrecognized value `Files` (wrong case) on a one-folder provider. -/
theorem c10_witness :
    (handler (some ("k".toList, "root".toList))
        (fun _ => [⟨"id1".toList, "CS".toList, "t".toList⟩]) (fun _ => []) []
        ⟨"GET".toList, none, some "Files".toList⟩ 0).1.status =
      (handler (some ("k".toList, "root".toList))
        (fun _ => [⟨"id1".toList, "CS".toList, "t".toList⟩]) (fun _ => []) []
        ⟨"GET".toList, none, some "folders".toList⟩ 0).1.status :=
  ((c10_query_defaults (some ("k".toList, "root".toList))
    (fun _ => [⟨"id1".toList, "CS".toList, "t".toList⟩]) (fun _ => []) 0).2.1
    none "Files".toList (by decide)).1

/-! ### Claim C4 -/

/-- **C4**: during gateway resolution a caller segment matches a provider
folder precisely when the two names are equal after whitespace normalization
of both sides, with every `~` in the caller's segment first converted to `/`:
a found folder comes from the parent's listing and matches in this sense; when
no folder is returned, no folder of the listing matches; and concretely,
segment `Computer Science` matches folder `"Computer Science "` (trailing
space) and segment `2024~25 Session` matches folder `2024/25 Session`. -/
theorem c4_segment_matching :
    (∀ (prov : Name → List GFolder) (parentId seg : Name) (f : GFolder),
      findFolderByName prov parentId seg = some f →
        f ∈ prov parentId ∧
        normalizeFolderName f.name = normalizeFolderName (tildeToSlash seg)) ∧
    (∀ (prov : Name → List GFolder) (parentId seg : Name),
      findFolderByName prov parentId seg = none →
        ∀ f ∈ prov parentId,
          normalizeFolderName f.name ≠ normalizeFolderName (tildeToSlash seg)) ∧
    (findFolderByName
        (fun _ => [⟨"i1".toList, "Computer Science ".toList, "m".toList⟩])
        "root".toList "Computer Science".toList =
      some ⟨"i1".toList, "Computer Science ".toList, "m".toList⟩) ∧
    (findFolderByName
        (fun _ => [⟨"i2".toList, "2024/25 Session".toList, "m".toList⟩])
        "root".toList "2024~25 Session".toList =
      some ⟨"i2".toList, "2024/25 Session".toList, "m".toList⟩) := by
  refine ⟨?_, ?_, by decide, by decide⟩
  · intro prov parentId seg f h
    unfold findFolderByName at h
    refine ⟨List.mem_of_find?_eq_some h, ?_⟩
    have := List.find?_some h
    simpa [beq_iff_eq] using this
  · intro prov parentId seg h f hf
    unfold findFolderByName at h
    have := List.find?_eq_none.mp h f hf
    simpa [beq_iff_eq] using this

/-- Witness for C4's universally quantified clause at a concrete input. -/
theorem c4_witness :
    (⟨"i1".toList, "Computer Science ".toList, "m".toList⟩ : GFolder) ∈
        [(⟨"i1".toList, "Computer Science ".toList, "m".toList⟩ : GFolder)] ∧
      normalizeFolderName "Computer Science ".toList =
        normalizeFolderName (tildeToSlash "Computer Science".toList) :=
  c4_segment_matching.1
    (fun _ => [⟨"i1".toList, "Computer Science ".toList, "m".toList⟩])
    "root".toList "Computer Science".toList
    ⟨"i1".toList, "Computer Science ".toList, "m".toList⟩ (by decide)

/-! ### Claim C5 -/

/-- A resolution failure reports a segment of the requested path. -/
theorem resolveSegs_error_mem (prov : Name → List GFolder) :
    ∀ (segs : List Name) (cur s : Name),
      resolveSegs prov cur segs = .error s → s ∈ segs := by
  intro segs
  induction segs with
  | nil => intro cur s h; exact absurd h (by simp [resolveSegs])
  | cons a rest ih =>
    intro cur s h
    rw [resolveSegs] at h
    cases hf : findFolderByName prov cur a with
    | none =>
      rw [hf] at h
      injection h with h
      exact h ▸ List.mem_cons_self a rest
    | some f =>
      rw [hf] at h
      exact List.mem_cons_of_mem a (ih f.id s h)

/-- **C5**: with a server-cache miss, a GET request whose path fails to
resolve is answered with exactly the 404 NOT_FOUND response whose message
names the first failing segment and whose body carries the full requested
path; the failing segment is one of the path's segments, and the response is
never a success listing. -/
theorem c5_not_found (k rootId : Name) (pf : Name → List GFolder)
    (pff : Name → List GFile) (qp qt : Option Name) (now : Nat) (s : Name)
    (hres : resolveSegs pf rootId (splitSlash (effPath qp)) = .error s) :
    (handler (some (k, rootId)) pf pff [] ⟨"GET".toList, qp, qt⟩ now).1 =
      ⟨404, .err "Path not found".toList (some (notFoundMsg s))
        (some (effPath qp))⟩ ∧
    s ∈ splitSlash (effPath qp) := by
  have hmiss : ∀ ck : Name, getCached ([] : SCache) ck now = (none, []) :=
    fun _ => rfl
  constructor
  · simp only [handler, if_neg (by decide : ¬("GET".toList = "OPTIONS".toList)),
      if_neg (by decide : ¬("GET".toList ≠ "GET".toList))]
    simp only [handlerCore, hmiss]
    simp only [hres]
  · exact resolveSegs_error_mem pf _ rootId s hres

/-- Witness for C5: `browse("/NoSuchDept/100 Level", FOLDERS)` on a provider
whose root has no children yields the 404 naming `NoSuchDept`. -/
theorem c5_witness :
    (handler (some ("k".toList, "root".toList)) (fun _ => []) (fun _ => []) []
        ⟨"GET".toList, some "/NoSuchDept/100 Level".toList,
          some "folders".toList⟩ 0).1 =
      ⟨404, .err "Path not found".toList (some (notFoundMsg "NoSuchDept".toList))
        (some (effPath (some "/NoSuchDept/100 Level".toList)))⟩ ∧
    "NoSuchDept".toList ∈ splitSlash (effPath (some "/NoSuchDept/100 Level".toList)) :=
  c5_not_found "k".toList "root".toList (fun _ => []) (fun _ => [])
    (some "/NoSuchDept/100 Level".toList) (some "folders".toList) 0
    "NoSuchDept".toList rfl

/-! ### Claim C3 -/

/-- The first embedded number of a name is one of its embedded numbers. -/
theorem firstNumber_mem_numbersIn :
    ∀ (l : Name) (n : Nat), firstNumber l = some n → n ∈ numbersIn l := by
  intro l
  induction l with
  | nil => intro n h; exact absurd h (by simp [firstNumber])
  | cons c rest ih =>
    intro n h
    rw [firstNumber] at h
    by_cases hc : isDigitB c = true
    · rw [if_pos hc] at h
      injection h with h
      rw [numbersIn, if_pos hc]
      exact h ▸ List.mem_cons_self _ _
    · rw [if_neg hc] at h
      rw [numbersIn, if_neg hc]
      exact ih n h

/-- The department-level filter block is a no-op at any other depth. -/
theorem applyLevelFilter_of_length_ne_one (segs : List Name)
    (items : List FItem) (h : segs.length ≠ 1) :
    applyLevelFilter segs items = items := by
  match segs with
  | [] => rfl
  | [d] => exact absurd rfl h
  | a :: b :: rest => rfl

/-- **C3**: `browse(path, FOLDERS)` applies department/level filtering only at
depth one.  (a) with exactly one resolved segment `d`, the listing is the
mapped children filtered by the allow-list of department `d`; (b) a kept
folder either has an embedded number matching an allowed numeric level
(default `[100,200,300,400]` or the department override) or its whole name
matches an allowed free-text entry; (c) at the root or any depth other than
one, every child is returned unfiltered. -/
theorem c3_level_filtering :
    (∀ (k rootId : Name) (pf : Name → List GFolder) (pff : Name → List GFile)
        (qp : Option Name) (now : Nat) (d fid : Name),
      splitSlash (effPath qp) = [d] →
      resolveSegs pf rootId (splitSlash (effPath qp)) = .ok fid →
      respData (handler (some (k, rootId)) pf pff []
          ⟨"GET".toList, qp, some "folders".toList⟩ now).1 =
        some (.folders (((pf fid).map (fun f =>
            ⟨f.id, normalizeFolderName f.name, f.modifiedTime⟩)).filter
          (keepLevel (getValidLevels (normalizeFolderName d)))))) ∧
    (∀ (levels : List LevelSpec) (f : FItem), keepLevel levels f = true →
      (∃ n ∈ numbersIn f.name, LevelSpec.num n ∈ levels) ∨
        LevelSpec.txt f.name ∈ levels) ∧
    (∀ (k rootId : Name) (pf : Name → List GFolder) (pff : Name → List GFile)
        (qp : Option Name) (now : Nat) (fid : Name),
      (splitSlash (effPath qp)).length ≠ 1 →
      resolveSegs pf rootId (splitSlash (effPath qp)) = .ok fid →
      respData (handler (some (k, rootId)) pf pff []
          ⟨"GET".toList, qp, some "folders".toList⟩ now).1 =
        some (.folders ((pf fid).map (fun f =>
          ⟨f.id, normalizeFolderName f.name, f.modifiedTime⟩)))) := by
  have hmiss : ∀ (ck : Name) (now : Nat),
      getCached ([] : SCache) ck now = (none, []) := fun _ _ => rfl
  refine ⟨?_, ?_, ?_⟩
  · intro k rootId pf pff qp now d fid hseg hres
    simp only [handler, if_neg (by decide : ¬("GET".toList = "OPTIONS".toList)),
      if_neg (by decide : ¬("GET".toList ≠ "GET".toList)),
      show effType (some "folders".toList) = "folders".toList from by decide]
    simp only [handlerCore, hmiss, hres,
      if_neg (by decide : ¬("folders".toList = "files".toList))]
    simp only [respData, hseg, applyLevelFilter]
  · intro levels f h
    unfold keepLevel at h
    cases hn : firstNumber f.name with
    | some n =>
      rw [hn] at h
      exact Or.inl ⟨n, firstNumber_mem_numbersIn f.name n hn, by simpa using h⟩
    | none =>
      rw [hn] at h
      exact Or.inr (by simpa using h)
  · intro k rootId pf pff qp now fid hlen hres
    simp only [handler, if_neg (by decide : ¬("GET".toList = "OPTIONS".toList)),
      if_neg (by decide : ¬("GET".toList ≠ "GET".toList)),
      show effType (some "folders".toList) = "folders".toList from by decide]
    simp only [handlerCore, hmiss, hres,
      if_neg (by decide : ¬("folders".toList = "files".toList))]
    simp only [respData, applyLevelFilter_of_length_ne_one _ _ hlen]

/-- Witness for C3 at the spec's own example: department `Nursing`
(allow-list `[100, 200]`) with children `100 Level`, `200 Level`, `300 Level`
listed at depth one. -/
theorem c3_witness :
    respData (handler (some ("k".toList, "root".toList))
        (fun id => if id = "root".toList
          then [⟨"nid".toList, "Nursing".toList, "m".toList⟩]
          else [⟨"l1".toList, "100 Level".toList, "m".toList⟩,
                ⟨"l2".toList, "200 Level".toList, "m".toList⟩,
                ⟨"l3".toList, "300 Level".toList, "m".toList⟩])
        (fun _ => []) [] ⟨"GET".toList, some "/Nursing".toList,
          some "folders".toList⟩ 0).1 =
      some (.folders ((((fun id => if id = "root".toList
          then [⟨"nid".toList, "Nursing".toList, "m".toList⟩]
          else [⟨"l1".toList, "100 Level".toList, "m".toList⟩,
                ⟨"l2".toList, "200 Level".toList, "m".toList⟩,
                ⟨"l3".toList, "300 Level".toList, "m".toList⟩] :
            Name → List GFolder) "nid".toList).map (fun f =>
          ⟨f.id, normalizeFolderName f.name, f.modifiedTime⟩)).filter
        (keepLevel (getValidLevels (normalizeFolderName "Nursing".toList))))) :=
  c3_level_filtering.1 "k".toList "root".toList
    (fun id => if id = "root".toList
      then [⟨"nid".toList, "Nursing".toList, "m".toList⟩]
      else [⟨"l1".toList, "100 Level".toList, "m".toList⟩,
            ⟨"l2".toList, "200 Level".toList, "m".toList⟩,
            ⟨"l3".toList, "300 Level".toList, "m".toList⟩])
    (fun _ => []) (some "/Nursing".toList) 0 "Nursing".toList "nid".toList
    rfl rfl

/-! ### Claim C1 -/

/-- `updateMeta` never touches the `curb_path_` part of the store. -/
theorem updateMeta_store {α : Type} (s : CState α) (om : Outcome) (n : Nat) :
    (updateMeta s om n).store = s.store := by
  cases om <;> rfl

/-- Reading back the key just written. -/
theorem storeGet_storeSet_same {α : Type} (st : Store α) (k : Name)
    (c : Cell α) : storeGet (storeSet st k c) k = some c := by
  induction st with
  | nil => simp [storeSet, storeGet]
  | cons kv rest ih =>
    obtain ⟨k', c'⟩ := kv
    by_cases h : k' = k
    · subst h
      simp [storeSet, storeGet]
    · simp [storeSet, storeGet, h, ih]

/-- **C1**: on a cache hit that is stale but not expired, `fetchPath` without
force refresh returns the cached payload with no blocking network fetch (the
result is the same for every blocking-fetch outcome), fires a background
refresh whose success overwrites the entry with the fresh payload and a fresh
timestamp, and whose failure is swallowed, leaving state and returned payload
untouched. -/
theorem c1_stale_while_revalidate {α : Type} (st : DState α) (p t : Name)
    (e : CEntry α) (now bgNow : Nat) (net net' bgNet : Except NetErr α)
    (o1 om o2 bo1 bom bo2 : Outcome)
    (hent : storeGet st.cache.store (getKey p t) = some (.ent e))
    (hstale : isStale now e.timestamp e.path = true)
    (hexp : isExpired now e.timestamp e.path = false) :
    (fetchPath st false net bgNet o1 om o2 bo1 bom bo2 p t now bgNow).1 =
      .value e.data ∧
    fetchPath st false net bgNet o1 om o2 bo1 bom bo2 p t now bgNow =
      fetchPath st false net' bgNet o1 om o2 bo1 bom bo2 p t now bgNow ∧
    (∀ d, bgNet = .ok d →
      storeGet (fetchPath st false net bgNet o1 om o2 .success bom bo2 p t
          now bgNow).2.cache.store (getKey p t) =
        some (.ent ⟨d, bgNow, p, t⟩)) ∧
    (∀ err, bgNet = .error err →
      fetchPath st false net bgNet o1 om o2 bo1 bom bo2 p t now bgNow =
        (.value e.data, st)) := by
  have hget : PathCache.get st.cache now p t = some ⟨e.data, e.timestamp,
      isStale now e.timestamp e.path, isExpired now e.timestamp e.path,
      (now : Int) - e.timestamp⟩ := by
    unfold PathCache.get
    rw [hent]
  refine ⟨?_, ?_, ?_, ?_⟩
  · simp [fetchPath, hget, hstale, hexp]
  · simp [fetchPath, hget, hstale, hexp]
  · intro d hd
    subst hd
    simp [fetchPath, hget, hstale, hexp, backgroundRefresh, doFetch,
      PathCache.set, localSet, updateMeta_store, storeGet_storeSet_same]
  · intro err herr
    subst herr
    simp [fetchPath, hget, hstale, hexp, backgroundRefresh, doFetch]

/-- Witness for C1: a 7-hour-old non-root entry (stale, not expired) holding
payload `7`; the call returns `7` and the successful background refresh
rewrites the entry to payload `8` with the background completion timestamp. -/
theorem c1_witness :
    (fetchPath (⟨⟨[(getKey "/a".toList "folders".toList,
          .ent ⟨(7 : Nat), 0, "/a".toList, "folders".toList⟩)], none⟩, []⟩ :
        DState Nat) false (.ok 99) (.ok 8) .success .success .success .success
        .success .success "/a".toList "folders".toList 25200000 25200001).1 =
      .value 7 ∧
    storeGet (fetchPath (⟨⟨[(getKey "/a".toList "folders".toList,
          .ent ⟨(7 : Nat), 0, "/a".toList, "folders".toList⟩)], none⟩, []⟩ :
        DState Nat) false (.ok 99) (.ok 8) .success .success .success .success
        .success .success "/a".toList "folders".toList
        25200000 25200001).2.cache.store
      (getKey "/a".toList "folders".toList) =
      some (.ent ⟨8, 25200001, "/a".toList, "folders".toList⟩) :=
  ⟨(c1_stale_while_revalidate
      (⟨⟨[(getKey "/a".toList "folders".toList,
          .ent ⟨(7 : Nat), 0, "/a".toList, "folders".toList⟩)], none⟩, []⟩ :
        DState Nat) "/a".toList "folders".toList
      ⟨7, 0, "/a".toList, "folders".toList⟩
      25200000 25200001 (.ok 99) (.ok 99) (.ok 8) .success .success .success
      .success .success .success rfl (by decide) (by decide)).1,
   (c1_stale_while_revalidate
      (⟨⟨[(getKey "/a".toList "folders".toList,
          .ent ⟨(7 : Nat), 0, "/a".toList, "folders".toList⟩)], none⟩, []⟩ :
        DState Nat) "/a".toList "folders".toList
      ⟨7, 0, "/a".toList, "folders".toList⟩
      25200000 25200001 (.ok 99) (.ok 99) (.ok 8) .success .success .success
      .success .success .success rfl (by decide) (by decide)).2.2.1 8 rfl⟩

/-! ### Claim C6 -/

/-- **C6, counterexample**: force refresh does *not* invalidate the cached
entries for the path first.  With a cached entry present and the forced
blocking fetch failing, the entry is still in the cache afterwards — whereas
an invalidate-first behaviour (shown on the right via `invalidatePath`) would
have removed it. -/
theorem c6_counterexample :
    fetchPath (⟨⟨[(getKey "/a".toList "folders".toList,
          .ent ⟨(7 : Nat), 0, "/a".toList, "folders".toList⟩)], none⟩, []⟩ :
        DState Nat) true (.error .netFail) (.error .netFail) .success .success
        .success .success .success .success "/a".toList "folders".toList
        100 100 =
      (.fail .netFail,
        ⟨⟨[(getKey "/a".toList "folders".toList,
          .ent ⟨(7 : Nat), 0, "/a".toList, "folders".toList⟩)], none⟩, []⟩) ∧
    storeGet (⟨⟨[(getKey "/a".toList "folders".toList,
          .ent ⟨(7 : Nat), 0, "/a".toList, "folders".toList⟩)], none⟩, []⟩ :
        DState Nat).cache.store (getKey "/a".toList "folders".toList) =
      some (.ent ⟨7, 0, "/a".toList, "folders".toList⟩) ∧
    storeGet (PathCache.invalidatePath (⟨[(getKey "/a".toList "folders".toList,
          .ent ⟨(7 : Nat), 0, "/a".toList, "folders".toList⟩)], none⟩ :
        CState Nat) "/a".toList).store (getKey "/a".toList "folders".toList) =
      none := by
  refine ⟨rfl, rfl, ?_⟩
  decide

/-- **C6, amended**: calling `fetchPath` with force refresh bypasses the cache
read entirely and goes straight to the blocking path; a successful blocking
fetch returns the fresh payload and overwrites the cache entries for that
(path, type); a failing blocking fetch propagates the error and leaves the
cache unchanged — no prior invalidation of the path's entries takes place
inside the API client (the UI layer invalidates separately before
re-fetching). -/
theorem c6_force_refresh {α : Type} (st : DState α) (p t : Name)
    (net bgNet : Except NetErr α) (om : Outcome) (now bgNow : Nat)
    (hload : loadKey p t ∉ st.loading) :
    (∀ o1 om' o2 bo1 bom bo2,
      fetchPath st true net bgNet o1 om' o2 bo1 bom bo2 p t now bgNow =
        fetchBlocking st net o1 om' o2 p t now) ∧
    (∀ d, net = .ok d →
      (fetchBlocking st net .success om .success p t now).1 = .value d ∧
      storeGet (fetchBlocking st net .success om .success p t
          now).2.cache.store (getKey p t) = some (.ent ⟨d, now, p, t⟩)) ∧
    (∀ err o1 om' o2, net = .error err →
      fetchBlocking st net o1 om' o2 p t now = (.fail err, st)) := by
  refine ⟨fun _ _ _ _ _ _ => rfl, ?_, ?_⟩
  · intro d hd
    subst hd
    constructor
    · simp [fetchBlocking, hload, doFetch]
    · simp [fetchBlocking, hload, doFetch, PathCache.set, localSet,
        updateMeta_store, storeGet_storeSet_same]
  · intro err o1 om' o2 herr
    subst herr
    simp [fetchBlocking, hload, doFetch]

/-- Witness for C6's amended theorem: a successful forced refresh on an empty
client state returns the fetched payload and stores it. -/
theorem c6_witness :
    fetchPath (⟨⟨[], none⟩, []⟩ : DState Nat) true (.ok 5) (.ok 5) .success
        .success .success .success .success .success "/b".toList
        "folders".toList 3 3 =
      fetchBlocking (⟨⟨[], none⟩, []⟩ : DState Nat) (.ok 5) .success .success
        .success "/b".toList "folders".toList 3 ∧
    (fetchBlocking (⟨⟨[], none⟩, []⟩ : DState Nat) (.ok 5) .success .success
        .success "/b".toList "folders".toList 3).1 = .value 5 ∧
    storeGet (fetchBlocking (⟨⟨[], none⟩, []⟩ : DState Nat) (.ok 5) .success
        .success .success "/b".toList "folders".toList 3).2.cache.store
      (getKey "/b".toList "folders".toList) =
      some (.ent ⟨5, 3, "/b".toList, "folders".toList⟩) :=
  ⟨(c6_force_refresh (⟨⟨[], none⟩, []⟩ : DState Nat) "/b".toList
      "folders".toList (.ok 5) (.ok 5) .success 3 3 (by decide)).1 .success
      .success .success .success .success .success,
   (c6_force_refresh (⟨⟨[], none⟩, []⟩ : DState Nat) "/b".toList
      "folders".toList (.ok 5) (.ok 5) .success 3 3 (by decide)).2.1 5 rfl⟩

/-! ### Claim C8 -/

/-- **C8, counterexample**: a failing blocking fetch is *not* replaced by a
still-valid cached entry.  The state holds a fresh (non-expired, payload `9`)
entry for the same (path, type); the forced blocking fetch fails and
`fetchPath` propagates the error instead of substituting the cached `9`. -/
theorem c8_counterexample :
    (fetchPath (⟨⟨[(getKey "/c".toList "folders".toList,
          .ent ⟨(9 : Nat), 0, "/c".toList, "folders".toList⟩)], none⟩, []⟩ :
        DState Nat) true (.error .netFail) (.error .netFail) .success .success
        .success .success .success .success "/c".toList "folders".toList
        10 10).1 = .fail .netFail ∧
    PathCache.get (⟨[(getKey "/c".toList "folders".toList,
          .ent ⟨(9 : Nat), 0, "/c".toList, "folders".toList⟩)], none⟩ :
        CState Nat) 10 "/c".toList "folders".toList =
      some ⟨9, 0, false, false, 10⟩ := by
  constructor
  · rfl
  · decide

/-- **C8, amended**: the API client propagates every blocking-fetch failure to
its caller unmodified — it never substitutes cached data at failure time.
The four clauses cover every execution of `fetchPath`: a forced call, a
non-forced call on a cache miss, and a non-forced call on an expired hit all
run the blocking fetch, and when it fails they return exactly the error with
the state unchanged; in the only remaining case — a non-forced call on a
non-expired hit — the cached payload is served before any blocking fetch
happens, for every network outcome. -/
theorem c8_error_propagation {α : Type} (st : DState α) (p t : Name)
    (now bgNow : Nat) (o1 om o2 : Outcome) (e : NetErr)
    (hload : loadKey p t ∉ st.loading) :
    (∀ bgNet bo1 bom bo2,
      fetchPath st true (.error e) bgNet o1 om o2 bo1 bom bo2 p t now bgNow =
        (.fail e, st)) ∧
    (PathCache.get st.cache now p t = none →
      ∀ bgNet bo1 bom bo2,
        fetchPath st false (.error e) bgNet o1 om o2 bo1 bom bo2 p t
            now bgNow = (.fail e, st)) ∧
    (∀ c, PathCache.get st.cache now p t = some c → c.isExpired = true →
      ∀ bgNet bo1 bom bo2,
        fetchPath st false (.error e) bgNet o1 om o2 bo1 bom bo2 p t
            now bgNow = (.fail e, st)) ∧
    (∀ c, PathCache.get st.cache now p t = some c → c.isExpired = false →
      ∀ net bgNet bo1 bom bo2,
        (fetchPath st false net bgNet o1 om o2 bo1 bom bo2 p t
            now bgNow).1 = .value c.data) := by
  refine ⟨?_, ?_, ?_, ?_⟩
  · intro bgNet bo1 bom bo2
    simp [fetchPath, fetchBlocking, hload, doFetch]
  · intro hnone bgNet bo1 bom bo2
    simp [fetchPath, hnone, fetchBlocking, hload, doFetch]
  · intro c hc hexp bgNet bo1 bom bo2
    simp [fetchPath, hc, hexp, fetchBlocking, hload, doFetch]
  · intro c hc hexp net bgNet bo1 bom bo2
    cases hstale : c.isStale <;>
      simp [fetchPath, hc, hexp, hstale]

/-- Witness for C8's amended theorem, exercising all four clauses: a forced
failing fetch propagates the error; so does a non-forced one on a cache miss;
so does a non-forced one on an expired (25-hour-old, non-root) entry; and a
fresh cached entry is served untouched by network failures in a non-forced
call. -/
theorem c8_witness :
    fetchPath (⟨⟨[], none⟩, []⟩ : DState Nat) true (.error .netFail)
        (.error .netFail) .success .success .success .success .success
        .success "/d".toList "folders".toList 4 4 =
      (.fail .netFail, (⟨⟨[], none⟩, []⟩ : DState Nat)) ∧
    fetchPath (⟨⟨[], none⟩, []⟩ : DState Nat) false (.error .netFail)
        (.error .netFail) .success .success .success .success .success
        .success "/d".toList "folders".toList 4 4 =
      (.fail .netFail, (⟨⟨[], none⟩, []⟩ : DState Nat)) ∧
    fetchPath (⟨⟨[(getKey "/d".toList "folders".toList,
          .ent ⟨(11 : Nat), 0, "/d".toList, "folders".toList⟩)], none⟩, []⟩ :
        DState Nat) false (.error .netFail) (.error .netFail) .success
        .success .success .success .success .success "/d".toList
        "folders".toList 90000000 90000000 =
      (.fail .netFail,
        (⟨⟨[(getKey "/d".toList "folders".toList,
          .ent ⟨(11 : Nat), 0, "/d".toList, "folders".toList⟩)], none⟩, []⟩ :
          DState Nat)) ∧
    (fetchPath (⟨⟨[(getKey "/d".toList "folders".toList,
          .ent ⟨(11 : Nat), 0, "/d".toList, "folders".toList⟩)], none⟩, []⟩ :
        DState Nat) false (.error .netFail) (.error .netFail) .success
        .success .success .success .success .success "/d".toList
        "folders".toList 4 4).1 = .value 11 := by
  refine ⟨?_, ?_, ?_, ?_⟩
  · exact (c8_error_propagation (⟨⟨[], none⟩, []⟩ : DState Nat) "/d".toList
      "folders".toList 4 4 .success .success .success .netFail
      (by decide)).1 (.error .netFail) .success .success .success
  · exact (c8_error_propagation (⟨⟨[], none⟩, []⟩ : DState Nat) "/d".toList
      "folders".toList 4 4 .success .success .success .netFail
      (by decide)).2.1 rfl (.error .netFail) .success .success .success
  · exact (c8_error_propagation
      (⟨⟨[(getKey "/d".toList "folders".toList,
          .ent ⟨(11 : Nat), 0, "/d".toList, "folders".toList⟩)], none⟩, []⟩ :
        DState Nat) "/d".toList "folders".toList 90000000 90000000 .success
      .success .success .netFail (by decide)).2.2.1
      ⟨11, 0, true, true, 90000000⟩ (by decide) rfl (.error .netFail)
      .success .success .success
  · exact (c8_error_propagation
      (⟨⟨[(getKey "/d".toList "folders".toList,
          .ent ⟨(11 : Nat), 0, "/d".toList, "folders".toList⟩)], none⟩, []⟩ :
        DState Nat) "/d".toList "folders".toList 4 4 .success .success
      .success .netFail (by decide)).2.2.2
      ⟨11, 0, false, false, 4⟩ (by decide) rfl (.error .netFail)
      (.error .netFail) .success .success .success

/-! ### Claim C7 -/

/-- Membership through the sorting insertion step. -/
theorem mem_insertByTs (z x : Name × Nat) :
    ∀ l : List (Name × Nat), z ∈ insertByTs x l → z = x ∨ z ∈ l := by
  intro l
  induction l with
  | nil => intro h; simpa [insertByTs] using h
  | cons y ys ih =>
    intro h
    rw [insertByTs] at h
    by_cases hx : x.2 ≤ y.2
    · rw [if_pos hx] at h
      rcases List.mem_cons.mp h with h | h
      · exact Or.inl h
      · exact Or.inr h
    · rw [if_neg hx] at h
      rcases List.mem_cons.mp h with h | h
      · exact Or.inr (h ▸ List.mem_cons_self _ _)
      · rcases ih h with h' | h'
        · exact Or.inl h'
        · exact Or.inr (List.mem_cons_of_mem _ h')

/-- The insertion step preserves sortedness by timestamp. -/
theorem pairwise_insertByTs (x : Name × Nat) :
    ∀ l : List (Name × Nat),
      l.Pairwise (fun a b => a.2 ≤ b.2) →
      (insertByTs x l).Pairwise (fun a b => a.2 ≤ b.2) := by
  intro l
  induction l with
  | nil => intro _; simp [insertByTs]
  | cons y ys ih =>
    intro h
    rw [List.pairwise_cons] at h
    rw [insertByTs]
    by_cases hx : x.2 ≤ y.2
    · rw [if_pos hx]
      refine List.Pairwise.cons ?_ (List.Pairwise.cons h.1 h.2)
      intro z hz
      rcases List.mem_cons.mp hz with rfl | hz
      · exact hx
      · exact le_trans hx (h.1 z hz)
    · rw [if_neg hx]
      refine List.Pairwise.cons ?_ (ih h.2)
      intro z hz
      rcases mem_insertByTs z x ys hz with rfl | hz
      · exact le_of_lt (Nat.lt_of_not_le hx)
      · exact h.1 z hz

/-- `sortByTs` sorts ascending by timestamp. -/
theorem pairwise_sortByTs :
    ∀ l : List (Name × Nat),
      (sortByTs l).Pairwise (fun a b => a.2 ≤ b.2) := by
  intro l
  induction l with
  | nil => simp [sortByTs]
  | cons x xs ih => exact pairwise_insertByTs x (sortByTs xs) ih

/-- **C7**: no exception escapes the path cache.  A quota failure of the first
write evicts the five oldest entries and retries exactly once, returning
`true` on a successful retry and `false` (not a throw) when the retry also
fails; a non-quota write failure returns `false` with the store untouched;
the evicted candidates are oldest-by-stored-timestamp store-wide (every entry
among the first five after sorting is no newer than every surviving one); and
a corrupt stored entry makes `get` return null instead of propagating the
parse failure. -/
theorem c7_no_escape {α : Type} (st : CState α) (om o2 : Outcome)
    (p t : Name) (d : α) (now : Nat) :
    (PathCache.set st .quotaExceeded om .success p t d now =
      (true, ⟨storeSet (clearOldestEntries st.store 5) (getKey p t)
        (.ent ⟨d, now, p, t⟩), st.meta⟩)) ∧
    (o2 ≠ .success →
      PathCache.set st .quotaExceeded om o2 p t d now =
        (false, ⟨clearOldestEntries st.store 5, st.meta⟩)) ∧
    (PathCache.set st .failOther om o2 p t d now = (false, st)) ∧
    (∀ l, collectPref st.store = .ok l →
      ∀ a ∈ (sortByTs l).take 5, ∀ b ∈ (sortByTs l).drop 5, a.2 ≤ b.2) ∧
    (storeGet st.store (getKey p t) = some .corrupt →
      PathCache.get st now p t = none) := by
  refine ⟨rfl, ?_, rfl, ?_, ?_⟩
  · intro h2
    cases o2 with
    | success => exact absurd rfl h2
    | quotaExceeded => rfl
    | failOther => rfl
  · intro l _
    have hp := pairwise_sortByTs l
    rw [← List.take_append_drop 5 (sortByTs l)] at hp
    exact fun a ha b hb => (List.pairwise_append.mp hp).2.2 a ha b hb
  · intro h
    unfold PathCache.get
    rw [h]

/-- Witness for C7 at concrete inputs: a quota failure whose retry also fails
returns `false` with the evicted store; on a six-entry store the oldest
sorted-out candidate is no newer than the surviving one; and `get` over a
corrupt entry returns null. -/
theorem c7_witness :
    PathCache.set (⟨[(getKey "/x".toList "folders".toList,
        .ent ⟨(1 : Nat), 5, "/x".toList, "folders".toList⟩)], none⟩ :
      CState Nat) .quotaExceeded .success .failOther "/x".toList
      "folders".toList 2 50 =
      (false, ⟨clearOldestEntries [(getKey "/x".toList "folders".toList,
        .ent ⟨(1 : Nat), 5, "/x".toList, "folders".toList⟩)] 5, none⟩) ∧
    ((getKey "/p6".toList "folders".toList, (1 : Nat)).2 ≤
      (getKey "/p5".toList "folders".toList, (6 : Nat)).2) ∧
    PathCache.get (⟨[(getKey "/y".toList "files".toList, Cell.corrupt)],
        none⟩ : CState Nat) 0 "/y".toList "files".toList = none :=
  ⟨(c7_no_escape (⟨[(getKey "/x".toList "folders".toList,
        .ent ⟨(1 : Nat), 5, "/x".toList, "folders".toList⟩)], none⟩ :
      CState Nat) .success .failOther "/x".toList "folders".toList 2
      50).2.1 (by decide),
   (c7_no_escape (⟨[(getKey "/p1".toList "folders".toList,
          .ent ⟨(0 : Nat), 2, "/p1".toList, "folders".toList⟩),
        (getKey "/p2".toList "folders".toList,
          .ent ⟨0, 3, "/p2".toList, "folders".toList⟩),
        (getKey "/p3".toList "folders".toList,
          .ent ⟨0, 4, "/p3".toList, "folders".toList⟩),
        (getKey "/p4".toList "folders".toList,
          .ent ⟨0, 5, "/p4".toList, "folders".toList⟩),
        (getKey "/p5".toList "folders".toList,
          .ent ⟨0, 6, "/p5".toList, "folders".toList⟩),
        (getKey "/p6".toList "folders".toList,
          .ent ⟨0, 1, "/p6".toList, "folders".toList⟩)], none⟩ : CState Nat)
      .success .success "/q".toList "folders".toList 0 0).2.2.2.1
      [(getKey "/p1".toList "folders".toList, 2),
       (getKey "/p2".toList "folders".toList, 3),
       (getKey "/p3".toList "folders".toList, 4),
       (getKey "/p4".toList "folders".toList, 5),
       (getKey "/p5".toList "folders".toList, 6),
       (getKey "/p6".toList "folders".toList, 1)] rfl
      (getKey "/p6".toList "folders".toList, 1) (by decide)
      (getKey "/p5".toList "folders".toList, 6) (by decide),
   (c7_no_escape (⟨[(getKey "/y".toList "files".toList, Cell.corrupt)],
        none⟩ : CState Nat) .success .success "/y".toList "files".toList 0
      0).2.2.2.2 rfl⟩
